import Mathlib

/-!
Verification of the mux process supervisor.

Shallow embedding of the process lifecycle manager (src/src/process.ts,
class MuxProcess), the navigation state machine and supervisor
(src/src/ui.ts, class MuxUI) and the entry point guard (src/src/main.ts,
cleanExit).  Command execution is modelled big-step: the environment
supplies, for each spawned shell command, the behavior of the resulting
OS child process (its pid, its output chunks, and its exit code), and
each operation returns its new state together with the ordered trace of
observable effects it performs.
-/

namespace Mux

/-- A shell command from the configuration (MuxCommand in src/src/config):
exec string, working directory relative to rootDir (default "./"), and
extra environment variables. -/
structure MuxCommand where
  exec : String
  dir : String := "./"
  env : List (String × String) := []
deriving DecidableEq

/-- Per-process configuration (MuxProcessConfig in src/src/config): a name,
a required run command, an optional install command and an optional stop
command. -/
structure MuxProcessConfig where
  name : String
  run : MuxCommand
  install : Option MuxCommand := none
  stop : Option MuxCommand := none
deriving DecidableEq

/-- Environment-supplied behavior of one spawned OS child process: the pid
the spawn produces, the output chunks the child emits before exiting, and
its exit code. -/
structure CmdBehavior where
  pid : Nat
  output : List String
  exitCode : Nat
deriving DecidableEq

/-- Observable effects of the lifecycle operations, in the order the code
performs them: spawning a shell child, appending a chunk to the log file,
truncating the log file, sending a whole-tree termination signal via
treeKill, and awaiting the retained run future (this.startPromise). -/
inductive Event where
  | spawn (pid : Nat) (cmdline : String)
  | logAppend (chunk : String)
  | logTruncate
  | treeKillEv (pid : Nat) (sig : String)
  | awaitRunFuture
deriving DecidableEq

/-- Mutable state of one MuxProcess instance: the pids pushed onto
this.children, the current content of the log file (as appended chunks
since the last truncation), and whether this.startPromise is assigned. -/
structure ProcState where
  children : List Nat := []
  log : List String := []
  startPromiseSet : Bool := false
deriving DecidableEq

/-- Simplified model of path.join for the working-directory string. -/
def pathJoin (a b : String) : String := a ++ "/" ++ b

namespace MuxProcess

/-- runCommand (src/src/process.ts lines 83-139), big-step: a missing
command resolves immediately with code 0 and no effects; otherwise the
child is spawned with sh -c "cd dir && exec", pushed onto this.children,
its output chunks are appended to the log, then the terminal marker
"exited with code N" is appended and the future resolves with N.  The
model is total: runCommand never throws and never rejects. -/
def runCommand (root : String) (st : ProcState) (command : Option MuxCommand)
    (b : CmdBehavior) : ProcState × Nat × List Event :=
  match command with
  | none => (st, 0, [])
  | some c =>
      let marker := "exited with code " ++ toString b.exitCode
      ({ st with
          children := st.children ++ [b.pid],
          log := st.log ++ b.output ++ [marker] },
        b.exitCode,
        Event.spawn b.pid ("cd " ++ pathJoin root c.dir ++ " && " ++ c.exec)
          :: (b.output.map Event.logAppend ++ [Event.logAppend marker]))

/-- install (src/src/process.ts lines 50-59): truncate the log file, then,
if an install command is configured, run it via runCommand and return its
exit code; a missing install command returns 0 without spawning. -/
def install (root : String) (cfg : MuxProcessConfig) (st : ProcState)
    (b : CmdBehavior) : ProcState × Nat × List Event :=
  let st1 := { st with log := ([] : List String) }
  match cfg.install with
  | none => (st1, 0, [Event.logTruncate])
  | some c =>
      let r := runCommand root st1 (some c) b
      (r.1, r.2.1, Event.logTruncate :: r.2.2)

/-- start (src/src/process.ts lines 61-65), big-step: issues the run
command via runCommand and assigns the returned future to
this.startPromise (retained for stop to await). -/
def start (root : String) (cfg : MuxProcessConfig) (st : ProcState)
    (b : CmdBehavior) : ProcState × Nat × List Event :=
  runCommand root { st with startPromiseSet := true } (some cfg.run) b

/-- stop (src/src/process.ts lines 23-48): if a stop command is configured,
run it and await its completion (this pushes the stop command's own child
onto this.children); then, for every tracked child with a truthy pid, send
treeKill SIGTERM; finally, if this.startPromise is assigned, await it. -/
def stop (root : String) (cfg : MuxProcessConfig) (st : ProcState)
    (b : CmdBehavior) : ProcState × List Event :=
  let r := match cfg.stop with
    | none => (st, ([] : List Event))
    | some c =>
        let rc := runCommand root st (some c) b
        (rc.1, rc.2.2)
  let kills := (r.1.children.filter (fun p => p ≠ 0)).map
    (fun p => Event.treeKillEv p ("SIGTERM"))
  if r.1.startPromiseSet then
    (r.1, r.2 ++ kills ++ [Event.awaitRunFuture])
  else
    (r.1, r.2 ++ kills)

/-- Fine-grained view of the body of start (src/src/process.ts lines
61-65): the assignment this.startPromise = this.runCommand(run) runs
synchronously, then the body suspends on await this.startPromise. -/
inductive StartStep where
  | assignStartPromise
  | awaitStartPromise
deriving DecidableEq

/-- The two statements of start's body, in source order. -/
def startBody : List StartStep :=
  [StartStep.assignStartPromise, StartStep.awaitStartPromise]

/-- Whether a step of start's body is a suspension point. -/
def isAwaitStep : StartStep → Bool
  | StartStep.awaitStartPromise => true
  | StartStep.assignStartPromise => false

/-- The steps of start's body that execute synchronously, before its first
suspension point (before control returns to the caller). -/
def startSyncSteps : List StartStep :=
  startBody.takeWhile (fun s => !isAwaitStep s)

/-- Whether the promise returned by start has resolved, as a function of
whether the run command's future has resolved: an async body is complete
exactly when every await it contains has resolved. -/
def startResolvedGiven (runFutureResolved : Bool) : Bool :=
  startBody.all (fun s => !isAwaitStep s || runFutureResolved)

end MuxProcess

namespace MuxUI

/-- Arena identifiers for the nodes created by buildStateGraph
(src/src/ui.ts): the quit end node, the main menu, the rebuild-all action
node, and the per-process tail, restart, rebuild and submenu nodes
(indexed by configuration position). -/
inductive NodeId where
  | quit
  | startMenu
  | rebuildAll
  | processTail (i : Nat)
  | processRestart (i : Nat)
  | processRebuild (i : Nat)
  | processMenu (i : Nat)
deriving DecidableEq

/-- Data of one state node: display name, whether a getAction supplier is
present, and the outgoing edges of the kind the node carries (menu option
list, onActionComplete target, onAnyKeypress target). -/
structure NodeData where
  name : String
  hasAction : Bool := false
  menu : Option (List NodeId) := none
  onActionComplete : Option NodeId := none
  onAnyKeypress : Option NodeId := none
deriving DecidableEq

/-- Name of the i-th configured process (empty for an out-of-range index,
which buildStateGraph never uses). -/
def procName (ps : List MuxProcessConfig) (i : Nat) : String :=
  ((ps.get? i).map (fun p => p.name)).getD ""

/-- Option list of the main menu as buildStateGraph constructs it: it
starts as the singleton quit list, rebuildAll is unshifted onto the front,
then the loop over the processes (in configuration order) unshifts each
process's tail node onto the front. -/
def mainMenuList (n : Nat) : List NodeId :=
  (List.range n).foldl (fun acc i => NodeId.processTail i :: acc)
    [NodeId.rebuildAll, NodeId.quit]

/-- buildStateGraph (src/src/ui.ts), as an arena: node data and edges for
every node id.  Edges mirror the source: rebuildAll completes back to the
main menu, each tail node goes to its process submenu on any keypress,
restart and rebuild complete into the tail node, and each process submenu
lists main menu, tail, restart, rebuild. -/
def buildStateGraph (ps : List MuxProcessConfig) : NodeId → NodeData
  | NodeId.quit => { name := "quit", hasAction := true }
  | NodeId.startMenu =>
      { name := "main menu", menu := some (mainMenuList ps.length) }
  | NodeId.rebuildAll =>
      { name := "rebuild all processes", hasAction := true,
        onActionComplete := some NodeId.startMenu }
  | NodeId.processTail i =>
      { name := procName ps i ++ ":tail", hasAction := true,
        onAnyKeypress := some (NodeId.processMenu i) }
  | NodeId.processRestart i =>
      { name := procName ps i ++ ":restart", hasAction := true,
        onActionComplete := some (NodeId.processTail i) }
  | NodeId.processRebuild i =>
      { name := procName ps i ++ ":rebuild", hasAction := true,
        onActionComplete := some (NodeId.processTail i) }
  | NodeId.processMenu i =>
      { name := procName ps i ++ ":menu",
        menu := some [NodeId.startMenu, NodeId.processTail i,
                      NodeId.processRestart i, NodeId.processRebuild i] }

/-- Next-state selection of the menu branch of handleNextState
(src/src/ui.ts): Object.values(currentState.menu)[index], i.e. the
index-th element of the option list, or undefined (none) when the index is
at or beyond the menu length. -/
def menuSelect (menu : List NodeId) (index : Nat) : Option NodeId :=
  menu.get? index

/-- Supervisor-level state relevant to die (src/src/ui.ts): the stopped
flag, one counter per configured process counting how many times that
process's stop has been invoked, and how many SIGINTs were sent to the
supervisor's own pid. -/
structure UIState where
  stopped : Bool := false
  stopCalls : List Nat := []
  sigints : Nat := 0
deriving DecidableEq

/-- die (src/src/ui.ts): sets this.stopped, stops every process
(Promise.all over process.stop()), then sends SIGINT to its own pid.  The
body never checks this.stopped, so every invocation performs the full
stop-all sequence. -/
def die (s : UIState) : UIState :=
  { stopped := true,
    stopCalls := s.stopCalls.map (fun n => n + 1),
    sigints := s.sigints + 1 }

end MuxUI

/-- State of the entry point (src/src/main.ts): the one-shot stopped flag
of cleanExit, plus the supervisor state. -/
structure MainState where
  stopped : Bool := false
  ui : MuxUI.UIState := {}
deriving DecidableEq

/-- cleanExit (src/src/main.ts lines 70-83): returns immediately if its
stopped flag is already set, otherwise sets it and awaits ui.die(). -/
def cleanExit (s : MainState) : MainState :=
  if s.stopped then s
  else { stopped := true, ui := MuxUI.die s.ui }

/-- Sample configuration used by concrete counterexamples: one long-running
process with a run command only. -/
def cfgA : MuxProcessConfig := { name := "A", run := { exec := "sleep 1000" } }

lemma procName_zero (p : MuxProcessConfig) (t : List MuxProcessConfig) :
    MuxUI.procName (p :: t) 0 = p.name := rfl

lemma procName_succ (p : MuxProcessConfig) (t : List MuxProcessConfig) (i : Nat) :
    MuxUI.procName (p :: t) (i + 1) = MuxUI.procName t i := rfl

lemma mainMenuList_eq (n : Nat) :
    MuxUI.mainMenuList n =
      ((List.range n).reverse.map MuxUI.NodeId.processTail)
        ++ [MuxUI.NodeId.rebuildAll, MuxUI.NodeId.quit] := by
  induction n with
  | zero => rfl
  | succ m ih =>
      simp only [MuxUI.mainMenuList, List.range_succ, List.foldl_append,
        List.foldl_cons, List.foldl_nil, List.reverse_append, List.reverse_cons,
        List.reverse_nil, List.nil_append, List.map_append, List.map_cons,
        List.map_nil, List.cons_append] at ih ⊢
      rw [ih]

lemma range_map_procName (ps : List MuxProcessConfig) (g : String → String) :
    (List.range ps.length).map (fun i => g (MuxUI.procName ps i)) =
      ps.map (fun p => g p.name) := by
  induction ps with
  | nil => rfl
  | cons p t ih =>
      simp only [List.length_cons, List.range_succ_eq_map, List.map_cons,
        List.map_map, Function.comp_def, Nat.succ_eq_add_one, procName_zero,
        procName_succ]
      rw [ih]

/-- C7: runCommand never rejects: for every configured command whose child
exits with code N it resolves with the value N, and the terminal marker
line "exited with code N" is the final content of the log file. -/
theorem runCommand_resolves_with_exit_code
    (root : String) (st : ProcState) (c : MuxCommand) (b : CmdBehavior) :
    ((MuxProcess.runCommand root st (some c) b).2.1 = b.exitCode) ∧
    ((MuxProcess.runCommand root st (some c) b).1.log =
      st.log ++ b.output ++ ["exited with code " ++ toString b.exitCode]) ∧
    ((MuxProcess.runCommand root st (some c) b).1.log.getLast? =
      some ("exited with code " ++ toString b.exitCode)) := by
  refine ⟨rfl, rfl, ?_⟩
  simp [MuxProcess.runCommand, ← List.append_assoc, List.getLast?_concat]

/-- C8: install truncates the log to empty before executing the install
command, so the log content after install is exactly the install command's
own output followed by its exit marker; a missing install command is a
successful no-op resolving with exit code 0 and spawning nothing. -/
theorem install_truncates_then_runs
    (root : String) (cfg : MuxProcessConfig) (st : ProcState) (b : CmdBehavior)
    (c : MuxCommand) :
    ((MuxProcess.install root { cfg with install := none } st b) =
      ({ st with log := [] }, 0, [Event.logTruncate])) ∧
    ((MuxProcess.install root { cfg with install := some c } st b).2.2.head? =
      some Event.logTruncate) ∧
    ((MuxProcess.install root { cfg with install := some c } st b).1.log =
      b.output ++ ["exited with code " ++ toString b.exitCode]) := by
  refine ⟨rfl, rfl, ?_⟩
  simp [MuxProcess.install, MuxProcess.runCommand]

/-- C1 counterexample: while the run command is still executing (its future
unresolved), the promise returned by start is itself still unresolved,
because the body of start awaits this.startPromise; the claim that start
resolves even while the run command is still executing is false. -/
theorem start_unresolved_while_run_executing :
    MuxProcess.startResolvedGiven false = false := by decide

/-- C1 amended: start captures and retains the run command's future in
startPromise synchronously, before its first suspension point (so a later
stop can await it), but the promise returned by start resolves exactly
when the run command's future resolves. -/
theorem start_captures_future_resolves_with_run
    (w : Bool) (root : String) (cfg : MuxProcessConfig) (st : ProcState)
    (b : CmdBehavior) :
    (MuxProcess.startResolvedGiven w = w) ∧
    (MuxProcess.startSyncSteps = [MuxProcess.StartStep.assignStartPromise]) ∧
    ((MuxProcess.start root cfg st b).1.startPromiseSet = true) := by
  refine ⟨?_, rfl, rfl⟩
  cases w <;> rfl

/-- C3: die is not one-shot.  A second die invocation reruns the full
stop-all sequence, invoking every process's stop a second time; only
cleanExit in the entry point carries the one-shot guard. -/
theorem die_twice_stops_processes_twice :
    ((MuxUI.die (MuxUI.die
        { stopped := false, stopCalls := [0, 0], sigints := 0 })).stopCalls
      = [2, 2]) ∧
    ((cleanExit (cleanExit
        { stopped := false,
          ui := { stopped := false, stopCalls := [0, 0], sigints := 0 } })).ui.stopCalls
      = [1, 1]) := by
  exact ⟨rfl, rfl⟩

/-- C5 counterexample: after start and a fully completed stop, the spawned
handle is still tracked; the children list is never emptied, so the claim
that zero OS handles remain tracked after shutdown is false. -/
theorem children_not_removed_after_stop :
    (MuxProcess.stop ("/r") cfgA
      (MuxProcess.start ("/r") cfgA
        { children := [], log := [], startPromiseSet := false }
        { pid := 7, output := [], exitCode := 0 }).1
      { pid := 9, output := [], exitCode := 0 }).1.children = [7] := rfl

/-- C5 amended: OS handles are appended to the tracked list when a command
is spawned and are never removed: every lifecycle operation leaves the
previously tracked handles in place, at most appending the newly spawned
one. -/
theorem children_append_only
    (root : String) (cfg : MuxProcessConfig) (st : ProcState) (b : CmdBehavior)
    (c : MuxCommand) :
    ((MuxProcess.runCommand root st (some c) b).1.children =
      st.children ++ [b.pid]) ∧
    ((MuxProcess.runCommand root st none b).1.children = st.children) ∧
    ((MuxProcess.stop root { cfg with stop := none } st b).1.children =
      st.children) ∧
    ((MuxProcess.stop root { cfg with stop := some c } st b).1.children =
      st.children ++ [b.pid]) ∧
    ((MuxProcess.start root cfg st b).1.children = st.children ++ [b.pid]) ∧
    ((MuxProcess.install root cfg st b).1.children = st.children ∨
      (MuxProcess.install root cfg st b).1.children = st.children ++ [b.pid]) := by
  refine ⟨rfl, rfl, ?_, ?_, rfl, ?_⟩
  · simp [MuxProcess.stop, apply_ite]
  · simp [MuxProcess.stop, MuxProcess.runCommand, apply_ite]
  · cases hc : cfg.install with
    | none => exact Or.inl (by simp [MuxProcess.install, hc])
    | some ci => exact Or.inr (by simp [MuxProcess.install, MuxProcess.runCommand, hc])

/-- C6 counterexample: after a fully completed stop, the log still holds
the exit marker written by the run command; stop does not truncate the log
file, so the claim that each stop leaves an empty log is false. -/
theorem log_not_truncated_after_stop :
    (MuxProcess.stop ("/r") cfgA
      { children := [7], log := ["exited with code 0"], startPromiseSet := true }
      { pid := 9, output := [], exitCode := 0 }).1.log
      = ["exited with code 0"] := rfl

/-- C6 amended: stop never truncates the log (no truncation effect occurs
in its trace, and with no stop command configured the log is unchanged by
stop); truncation instead happens at the start of install. -/
theorem stop_never_truncates
    (root : String) (cfg : MuxProcessConfig) (st : ProcState) (b : CmdBehavior) :
    (((MuxProcess.stop root cfg st b).2).count Event.logTruncate = 0) ∧
    ((MuxProcess.stop root { cfg with stop := none } st b).1.log = st.log) ∧
    ((MuxProcess.install root cfg st b).2.2.head? = some Event.logTruncate) := by
  refine ⟨?_, ?_, ?_⟩
  · rw [List.count_eq_zero]
    cases hc : cfg.stop <;>
      simp only [MuxProcess.stop, MuxProcess.runCommand, hc] <;>
      split <;> simp
  · simp [MuxProcess.stop, apply_ite]
  · cases hc : cfg.install <;> simp [MuxProcess.install, hc]

/-- C2: on a started process, stop performs its steps in order: first the
configured stop command (if any) runs to completion, then every tracked
handle with a nonzero pid receives a treeKill SIGTERM, then the outstanding
run future is awaited, and the await of the run future is the last effect
of stop, so stop resolves only after the run future has resolved. -/
theorem stop_order
    (root : String) (cfg : MuxProcessConfig) (st : ProcState) (b : CmdBehavior)
    (c : MuxCommand) :
    ((MuxProcess.stop root { cfg with stop := none }
        { st with startPromiseSet := true } b).2 =
      (st.children.filter (fun p => p ≠ 0)).map
          (fun p => Event.treeKillEv p ("SIGTERM"))
        ++ [Event.awaitRunFuture]) ∧
    ((MuxProcess.stop root { cfg with stop := some c }
        { st with startPromiseSet := true } b).2 =
      (MuxProcess.runCommand root { st with startPromiseSet := true }
          (some c) b).2.2
        ++ ((st.children ++ [b.pid]).filter (fun p => p ≠ 0)).map
            (fun p => Event.treeKillEv p ("SIGTERM"))
        ++ [Event.awaitRunFuture]) ∧
    ((MuxProcess.stop root cfg { st with startPromiseSet := true } b).2.getLast? =
      some Event.awaitRunFuture) ∧
    (∀ p, p ∈ st.children → p ≠ 0 →
      Event.treeKillEv p ("SIGTERM") ∈
        (MuxProcess.stop root cfg { st with startPromiseSet := true } b).2) := by
  have h1 : (MuxProcess.stop root { cfg with stop := none }
      { st with startPromiseSet := true } b).2 =
      (st.children.filter (fun p => p ≠ 0)).map
          (fun p => Event.treeKillEv p ("SIGTERM"))
        ++ [Event.awaitRunFuture] := by
    simp [MuxProcess.stop]
  have h2 : ∀ cv : MuxCommand, (MuxProcess.stop root { cfg with stop := some cv }
      { st with startPromiseSet := true } b).2 =
      (MuxProcess.runCommand root { st with startPromiseSet := true }
          (some cv) b).2.2
        ++ ((st.children ++ [b.pid]).filter (fun p => p ≠ 0)).map
            (fun p => Event.treeKillEv p ("SIGTERM"))
        ++ [Event.awaitRunFuture] := by
    intro cv
    simp [MuxProcess.stop, MuxProcess.runCommand]
  refine ⟨h1, h2 c, ?_, ?_⟩
  · cases hc : cfg.stop with
    | none =>
        have hcfg : cfg = { cfg with stop := none } := by
          cases cfg
          simp_all
        rw [hcfg, h1]
        exact List.getLast?_concat _
    | some cv =>
        have hcfg : cfg = { cfg with stop := some cv } := by
          cases cfg
          simp_all
        rw [hcfg, h2 cv]
        exact List.getLast?_concat _
  · intro p hp hne
    cases hc : cfg.stop with
    | none =>
        have hcfg : cfg = { cfg with stop := none } := by
          cases cfg
          simp_all
        rw [hcfg, h1]
        simp [hp, hne]
    | some cv =>
        have hcfg : cfg = { cfg with stop := some cv } := by
          cases cfg
          simp_all
        rw [hcfg, h2 cv]
        simp [hp, hne]

/-- C2 witness: on a concrete started process tracking pid 3, stop sends a
treeKill SIGTERM to pid 3. -/
theorem stop_order_witness :
    Event.treeKillEv 3 ("SIGTERM") ∈
      (MuxProcess.stop ("/r") cfgA
        { children := [3], log := [], startPromiseSet := true }
        { pid := 9, output := [], exitCode := 0 }).2 :=
  (stop_order ("/r") cfgA { children := [3], log := [], startPromiseSet := false }
      { pid := 9, output := [], exitCode := 0 }
      { exec := "wind-down" }).2.2.2 3 (by decide) (by decide)

/-- C4 counterexample: stop on a never-started process that has a stop
command configured does issue a tree-kill: the stop command's own spawned
handle (pid 5) is tracked before the kill loop runs and receives a
treeKill SIGTERM, so the claim that no tree-kill is issued is false. -/
theorem stop_never_started_kills_stop_child :
    Event.treeKillEv 5 ("SIGTERM") ∈
      (MuxProcess.stop ("/r")
        { name := "A", run := { exec := "run" },
          stop := some { exec := "wind-down" } }
        { children := [], log := [], startPromiseSet := false }
        { pid := 5, output := [], exitCode := 0 }).2 := by decide

/-- C4 amended: stop on a never-started process completes without throwing
and never awaits a run future; if no stop command is configured it performs
no effects at all (in particular no tree-kill), while a configured stop
command is run and its own spawned handle is then tree-killed. -/
theorem stop_never_started
    (root : String) (cfg : MuxProcessConfig) (lg : List String) (b : CmdBehavior)
    (c : MuxCommand) (p : Nat) :
    ((MuxProcess.stop root { cfg with stop := none }
        { children := [], log := lg, startPromiseSet := false } b).2 = []) ∧
    ((MuxProcess.stop root { cfg with stop := some c }
        { children := [], log := lg, startPromiseSet := false }
        { b with pid := p + 1 }).2 =
      (MuxProcess.runCommand root
          { children := [], log := lg, startPromiseSet := false }
          (some c) { b with pid := p + 1 }).2.2
        ++ [Event.treeKillEv (p + 1) ("SIGTERM")]) ∧
    (((MuxProcess.stop root { cfg with stop := some c }
        { children := [], log := lg, startPromiseSet := false } b).2).count
        Event.awaitRunFuture = 0) := by
  refine ⟨?_, ?_, ?_⟩
  · simp [MuxProcess.stop]
  · simp [MuxProcess.stop, MuxProcess.runCommand]
  · rw [List.count_eq_zero]
    simp only [MuxProcess.stop, MuxProcess.runCommand]
    split <;> simp_all

/-- C9: the menu branch of handleNextState transitions to exactly the i-th
entry of the menu's option list for every valid index i, and an index at
or beyond the menu length selects no entry at all (no clamping). -/
theorem menu_selects_ith_entry
    (menu : List MuxUI.NodeId) (i : Nat) (h : i < menu.length) :
    (MuxUI.menuSelect menu i = some (menu.get ⟨i, h⟩)) ∧
    (∀ j, menu.length ≤ j → MuxUI.menuSelect menu j = none) := by
  constructor
  · simp [MuxUI.menuSelect, List.get?_eq_get h]
  · intro j hj
    simpa [MuxUI.menuSelect, List.get?_eq_none] using hj

/-- C9 witness: in the two-entry menu holding rebuildAll then quit,
selecting index 1 yields the quit entry, and any index at or beyond 2
selects nothing. -/
theorem menu_selects_ith_entry_witness :
    (MuxUI.menuSelect [MuxUI.NodeId.rebuildAll, MuxUI.NodeId.quit] 1 =
      some ([MuxUI.NodeId.rebuildAll, MuxUI.NodeId.quit].get ⟨1, by decide⟩)) ∧
    (∀ j, [MuxUI.NodeId.rebuildAll, MuxUI.NodeId.quit].length ≤ j →
      MuxUI.menuSelect [MuxUI.NodeId.rebuildAll, MuxUI.NodeId.quit] j = none) :=
  menu_selects_ith_entry [MuxUI.NodeId.rebuildAll, MuxUI.NodeId.quit] 1 (by decide)

/-- C10: the main menu built by buildStateGraph lists the processes' tail
nodes in reverse configuration order, then the rebuild-all node, then the
quit node last; its displayed names are correspondingly the process names
suffixed with ":tail" in reverse order, then "rebuild all processes",
then "quit". -/
theorem main_menu_order (ps : List MuxProcessConfig) :
    ((MuxUI.buildStateGraph ps MuxUI.NodeId.startMenu).menu =
      some (((List.range ps.length).reverse.map MuxUI.NodeId.processTail)
        ++ [MuxUI.NodeId.rebuildAll, MuxUI.NodeId.quit])) ∧
    ((MuxUI.mainMenuList ps.length).map
        (fun nid => (MuxUI.buildStateGraph ps nid).name) =
      (ps.reverse.map (fun p => p.name ++ ":tail"))
        ++ ["rebuild all processes", "quit"]) := by
  constructor
  · show some (MuxUI.mainMenuList ps.length) = _
    rw [mainMenuList_eq]
  · rw [mainMenuList_eq]
    simp only [List.map_append, List.map_map, List.map_cons, List.map_nil,
      MuxUI.buildStateGraph, Function.comp_def]
    rw [List.map_reverse, range_map_procName ps (fun s => s ++ ":tail"),
      ← List.map_reverse]

end Mux
